import Mathlib

set_option linter.unusedVariables false

/-!
Shallow embedding of `pyzoo/zoo/orca/learn/openvino/estimator.py`
(class `Estimator.from_openvino` / `OpenvinoEstimator`).

Conventions of the embedding:
* a 2-D numpy array is a `List (List Int)` (`NDArray`); its first-dimension
  length is `List.length`;
* Python exceptions are the `PyError` inductive, fallible code returns
  `Except PyError _`;
* the external primitives (`InferenceModel.distributed_predict`,
  `dataframe_to_xshards`, `nest.flatten`) are not part of this repository's
  file: `distributed_predict` is passed in as an explicit function argument
  (claims C2/C4 quantify over its behaviour as an assumption), a DataFrame
  input is represented by its `dataframe_to_xshards` image, and a Python
  `list` input is represented by its `nest.flatten` leaf list.
-/

/-- The Python exceptions this file can raise. -/
inductive PyError where
  | valueError
  | assertionError
  | attributeError
  | indexError
  | nameError
  | notImplementedError
deriving DecidableEq

/-- A 2-D numpy array, as its list of rows; `len(a)`/`a.shape[0]` is `a.length`. -/
abbrev NDArray : Type := List (List Int)

/-- A leaf object reached by `nest.flatten`: either a numpy ndarray or some
other Python object that supports `len` but has no `.shape` attribute
(modelled as a plain Python list of ints). -/
inductive PyObj where
  | arr (rows : List (List Int))
  | pyList (elems : List Int)
deriving DecidableEq

/-- Python `len(x)`: defined for both ndarrays and plain lists. -/
def pyObjLen : PyObj → Nat
  | .arr rows => rows.length
  | .pyList elems => elems.length

/-- Python `x.shape[0]`: only ndarrays have `.shape`; other objects raise
`AttributeError`. -/
def pyObjShape0 : PyObj → Except PyError Nat
  | .arr rows => .ok rows.length
  | .pyList _ => .error .attributeError

/-- `math.ceil(n / b)` for natural `n` and positive `b` (exact rational
ceiling, as Python's float division followed by `math.ceil` computes for the
sizes in question). -/
def ceilPy (n b : Nat) : Nat := (n + b - 1) / b

/-- The part sizes `np.array_split` uses: splitting a length-`n` axis into
`k` parts gives `n % k` parts of size `n / k + 1` followed by `k - n % k`
parts of size `n / k`. -/
def splitSizes (n k : Nat) : List Nat :=
  (List.range k).map (fun i => if i < n % k then n / k + 1 else n / k)

/-- Cut a list into consecutive pieces of the given sizes. -/
def splitBySizes : List α → List Nat → List (List α)
  | _, [] => []
  | xs, s :: rest => xs.take s :: splitBySizes (xs.drop s) rest

/-- `np.array_split(xs, k)` along the first axis. -/
def array_split (xs : List α) (k : Nat) : List (List α) :=
  splitBySizes xs (splitSizes xs.length k)

lemma splitBySizes_length (xs : List α) (sizes : List Nat) :
    (splitBySizes xs sizes).length = sizes.length := by
  induction sizes generalizing xs with
  | nil => rfl
  | cons s rest ih => simp [splitBySizes, ih]

lemma splitSizes_length (n k : Nat) : (splitSizes n k).length = k := by
  simp [splitSizes]

lemma array_split_length (xs : List α) (k : Nat) :
    (array_split xs k).length = k := by
  unfold array_split
  rw [splitBySizes_length, splitSizes_length]

lemma splitBySizes_mem_length {xs : List α} {sizes : List Nat} {p : List α}
    (hp : p ∈ splitBySizes xs sizes) : ∃ s ∈ sizes, p.length ≤ s := by
  induction sizes generalizing xs with
  | nil => simp [splitBySizes] at hp
  | cons s rest ih =>
    simp only [splitBySizes, List.mem_cons] at hp
    rcases hp with h | h
    · exact ⟨s, List.mem_cons_self s rest, by simp [h]⟩
    · obtain ⟨t, ht, hle⟩ := ih h
      exact ⟨t, List.mem_cons_of_mem s ht, hle⟩

lemma ceilPy_pos {n b : Nat} (hn : 1 ≤ n) (hb : 1 ≤ b) : 1 ≤ ceilPy n b := by
  unfold ceilPy
  rw [Nat.le_div_iff_mul_le (by omega)]
  omega

lemma ceilPy_mul_ge (n b : Nat) (hb : 1 ≤ b) : n ≤ ceilPy n b * b := by
  unfold ceilPy
  have h1 := Nat.div_add_mod (n + b - 1) b
  have h2 : (n + b - 1) % b < b := Nat.mod_lt _ (by omega)
  rw [mul_comm]
  revert h1 h2
  generalize (n + b - 1) / b = q
  generalize (n + b - 1) % b = r
  generalize hA : b * q = A
  omega

/-- Every part size produced by splitting `n` items into `ceil(n/b)` parts is
at most `b`. -/
lemma splitSizes_le {n b s : Nat} (hn : 1 ≤ n) (hb : 1 ≤ b)
    (hs : s ∈ splitSizes n (ceilPy n b)) : s ≤ b := by
  set k := ceilPy n b with hk
  have hk1 : 1 ≤ k := ceilPy_pos hn hb
  have hnk : n ≤ k * b := ceilPy_mul_ge n b hb
  have hdm := Nat.div_add_mod n k
  unfold splitSizes at hs
  simp only [List.mem_map, List.mem_range] at hs
  obtain ⟨i, hi, hif⟩ := hs
  have hdiv : n / k ≤ b := by
    have h1 : n / k ≤ k * b / k := Nat.div_le_div_right hnk
    rwa [Nat.mul_div_cancel_left b (by omega : 0 < k)] at h1
  by_cases hc : i < n % k
  · have hmod : 0 < n % k := Nat.lt_of_le_of_lt (Nat.zero_le i) hc
    have hlt : n / k < b := by
      by_contra hge
      push_neg at hge
      have h2 : k * b ≤ k * (n / k) := Nat.mul_le_mul_left k hge
      have h3 : k * (n / k) + n % k = n := hdm
      linarith
    simp only [hc, if_true] at hif
    omega
  · simp only [hc, if_false] at hif
    omega

/-- Every chunk `np.array_split(x, ceil(n/b))` produces from a length-`n`
array has first-dimension length at most `b`. -/
lemma array_split_chunk_le {x : List α} {n b : Nat} {c : List α}
    (hx : x.length = n) (hn : 1 ≤ n) (hb : 1 ≤ b)
    (hc : c ∈ array_split x (ceilPy n b)) : c.length ≤ b := by
  unfold array_split at hc
  rw [hx] at hc
  obtain ⟨s, hs, hle⟩ := splitBySizes_mem_length hc
  exact le_trans hle (splitSizes_le hn hb hs)

/-- The `x` value of an XShards partition dictionary: a numpy array, a list of
(alleged) ndarrays, or some other Python object. -/
inductive Feature where
  | nd (a : NDArray)
  | featList (xs : List PyObj)
  | other
deriving DecidableEq

/-- Python `len(shard["x"])` as used by `delete_useless_result` /
`update_shard`: the first-dimension length of an ndarray, or the number of
elements of a list.  (`Feature.other` never reaches those functions because
`predict_transform` raises `ValueError` on it first; its length is
irrelevant and set to 0.) -/
def featLen : Feature → Nat
  | .nd a => a.length
  | .featList xs => xs.length
  | .other => 0

/-- An XShards partition `{'x': feature}` (`predict`'s docstring: each
partition is a dictionary of `{'x': feature}`). -/
structure ShardDict where
  x : Feature
deriving DecidableEq

/-- A partition of the returned XShards: the input dictionary extended with
the key `'prediction'`. -/
structure PredictedShard where
  x : Feature
  prediction : NDArray
deriving DecidableEq

/-- The per-element checks of `predict_transform`'s list branch (lines
95-103): each element must be an ndarray (else `AssertionError`) with
first-dimension length at most `batch_size` (else `AssertionError`). -/
def checkElems (batch_size : Nat) : List PyObj → Except PyError Unit
  | [] => .ok ()
  | .pyList _ :: _ => .error .assertionError
  | .arr r :: rest =>
    if r.length ≤ batch_size then checkElems batch_size rest
    else .error .assertionError

/-- `predict_transform` (lines 87-106) applied to the `x` value of a shard
dictionary (the dict-shape asserts of lines 88-89 cannot fail on a
`ShardDict`): an ndarray must have first-dimension length at most
`batch_size` (line 92, else `AssertionError`), a list is checked
element-wise, anything else raises `ValueError` (line 105); on success the
feature is returned unchanged (line 106). -/
def predict_transform (feature_data : Feature) (batch_size : Nat) :
    Except PyError Feature :=
  match feature_data with
  | .nd a =>
    if a.length ≤ batch_size then .ok (.nd a) else .error .assertionError
  | .featList xs =>
    match checkElems batch_size xs with
    | .error e => .error e
    | .ok _ => .ok (.featList xs)
  | .other => .error .valueError

/-- `data.transform_shard(predict_transform, batch_size)` over the list of
partitions; a failing partition fails the whole Spark job. -/
def transformAll (batch_size : Nat) : List ShardDict → Except PyError (List Feature)
  | [] => .ok []
  | s :: rest =>
    match predict_transform s.x batch_size with
    | .error e => .error e
    | .ok f =>
      match transformAll batch_size rest with
      | .error e => .error e
      | .ok fs => .ok (f :: fs)

/-- `update_shard` (lines 130-134): store in the shard, under key
`'prediction'`, the per-shard output `y` truncated to `len(shard["x"])`. -/
def update_shard (shard : ShardDict) (y : NDArray) : PredictedShard :=
  { x := shard.x, prediction := y.take (featLen shard.x) }

/-- The SparkXShards branch of `predict` (lines 126-135):
`transform_shard predict_transform`, then `distributed_predict` (the
external primitive, passed here as `predictShards`), then
`data.rdd.zip(result_rdd).map(update_shard)`. -/
def xshardsBranch (shards : List ShardDict) (batch_size : Nat)
    (predictShards : List Feature → List NDArray) :
    Except PyError (List PredictedShard) :=
  match transformAll batch_size shards with
  | .error e => .error e
  | .ok transformed =>
    .ok (List.zipWith update_shard shards (predictShards transformed))

/-- The Spark DataFrame branch of `predict` (lines 110-125), starting from
the `dataframe_to_xshards` image of the DataFrame: transform, predict,
`delete_useless_result` (trim each output to `len(shard["x"])`), and
`flatMap` the per-shard rows together (the final
`convert_predict_rdd_to_dataframe` is external). -/
def dfBranch (shards : List ShardDict) (batch_size : Nat)
    (predictShards : List Feature → List NDArray) : Except PyError NDArray :=
  match transformAll batch_size shards with
  | .error e => .error e
  | .ok transformed =>
    .ok (List.flatten
      (List.zipWith (fun s y => y.take (featLen s.x)) shards
        (predictShards transformed)))

/-- `data_to_be_rdd[idx].append(x_part)` for all `idx` at once (lines
157-158): append the `idx`-th part of the current array to the `idx`-th
shard under construction. -/
def appendParts (acc : List (List NDArray)) (parts : List NDArray) :
    List (List NDArray) :=
  List.zipWith (fun shard part => shard ++ [part]) acc parts

/-- The loop `for x in flattened` of the list branch (lines 149-159):
assert each element is an ndarray, assert it has the common first-dimension
length `dl`, split it into `k` parts (`np.array_split` raises `ValueError`
for `k = 0`), distribute the parts over the shards, and — reproducing the
source exactly — rebind `data_length_list` to
`list(map(lambda arr: len(arr), x_part))` at every inner iteration (line
159), i.e. to the lengths of the *rows* of the current part, so that after
the loop it holds the row lengths of the last part of the last array. -/
def processFlattened (dl k : Nat) :
    List PyObj → List (List NDArray) → Option (List Nat) →
    Except PyError (List (List NDArray) × Option (List Nat))
  | [], acc, dll => .ok (acc, dll)
  | .pyList _ :: _, _, _ => .error .assertionError
  | .arr rows :: rest, acc, dll =>
    if rows.length ≠ dl then .error .assertionError
    else if k = 0 then .error .valueError
    else
      let x_parts := array_split rows k
      let dll' := match x_parts.getLast? with
        | some part => some (part.map List.length)
        | none => dll
      processFlattened dl k rest (appendParts acc x_parts) dll'

/-- Lines 142-159 of the list branch, starting from the `nest.flatten` image
of the list: `data_length = len(flattened[0])` (`IndexError` on an empty
list), `split_num = ceil(flattened[0].shape[0] / batch_size)`
(`AttributeError` if the first element has no `.shape`), then the loop over
`flattened`.  Returns the shards (each a list of per-array parts) and the
final value of `data_length_list` (`none` when the source variable was never
assigned). -/
def listBranch (flattened : List PyObj) (batch_size : Nat) :
    Except PyError (List (List NDArray) × Option (List Nat)) :=
  match flattened with
  | [] => .error .indexError
  | x0 :: _ =>
    match pyObjShape0 x0 with
    | .error e => .error e
    | .ok shape0 =>
      let split_num := ceilPy shape0 batch_size
      processFlattened (pyObjLen x0) split_num flattened
        (List.replicate split_num []) none

/-- The trimming loop of lines 166-167:
`result_arr_list[i] = result_arr_list[i][:data_length_list[i]]`, raising
`IndexError` when `data_length_list` has fewer entries than
`result_arr_list`. -/
def trimResults : List NDArray → List Nat → Except PyError (List NDArray)
  | [], _ => .ok []
  | _ :: _, [] => .error .indexError
  | r :: rs, k :: ks =>
    match trimResults rs ks with
    | .error e => .error e
    | .ok rest => .ok (r.take k :: rest)

/-- The whole list branch of `predict` (lines 142-169): build the shards,
run the external `distributed_predict` (`predictList`, one output ndarray
per shard), trim with `data_length_list` (`NameError` if that variable was
never assigned), and `np.concatenate` along axis 0. -/
def listBranchFull (flattened : List PyObj) (batch_size : Nat)
    (predictList : List NDArray → NDArray) : Except PyError NDArray :=
  match listBranch flattened batch_size with
  | .error e => .error e
  | .ok (_, none) => .error .nameError
  | .ok (shards, some dll) =>
    match trimResults (shards.map predictList) dll with
    | .error e => .error e
    | .ok trimmed => .ok trimmed.flatten

/-- The ndarray branch of `predict` (lines 137-141 and 164-169):
`split_num = ceil(len(data) / batch_size)`, `np.array_split` (which raises
`ValueError` for `split_num = 0`), record the per-chunk lengths in
`data_length_list`, run the external `distributed_predict` (`predictChunk`,
one output per chunk), trim, and concatenate. -/
def ndarrayBranchFull (data : NDArray) (batch_size : Nat)
    (predictChunk : NDArray → NDArray) : Except PyError NDArray :=
  let split_num := ceilPy data.length batch_size
  if split_num = 0 then .error .valueError
  else
    let arrays := array_split data split_num
    let data_length_list := arrays.map List.length
    match trimResults (arrays.map predictChunk) data_length_list with
    | .error e => .error e
    | .ok trimmed => .ok trimmed.flatten

/-- The external `InferenceModel.distributed_predict` primitive, seen through
the three element types `predict` feeds it. -/
structure Engine where
  predictShards : List Feature → List NDArray
  predictChunk : NDArray → NDArray
  predictList : List NDArray → NDArray

/-- The input container types `predict` dispatches on (lines 110, 126, 136,
137, 142): a Spark DataFrame (represented by its `dataframe_to_xshards`
image), a SparkXShards, a numpy ndarray, a Python list (represented by its
`nest.flatten` leaves), or any other object. -/
inductive PredictInput where
  | dataFrame (shards : List ShardDict)
  | sparkXShards (shards : List ShardDict)
  | ndarray (a : NDArray)
  | listData (flattened : List PyObj)
  | other (className : String)

/-- The result shape of `predict`, matching the input container type. -/
inductive PredictResult where
  | dfOut (rows : NDArray)
  | shardsOut (shards : List PredictedShard)
  | arrOut (a : NDArray)
deriving DecidableEq

/-- `OpenvinoEstimator.predict` (lines 69-172): dispatch on the input
container type; any other type raises `ValueError` (lines 170-172). -/
def predictModel (data : PredictInput) (batch_size : Nat) (eng : Engine) :
    Except PyError PredictResult :=
  match data with
  | .dataFrame shards =>
    (dfBranch shards batch_size eng.predictShards).map PredictResult.dfOut
  | .sparkXShards shards =>
    (xshardsBranch shards batch_size eng.predictShards).map PredictResult.shardsOut
  | .ndarray a =>
    (ndarrayBranchFull a batch_size eng.predictChunk).map PredictResult.arrOut
  | .listData flattened =>
    (listBranchFull flattened batch_size eng.predictList).map PredictResult.arrOut
  | .other _ => .error .valueError

/-- Python strings, as lists of characters. -/
abbrev PyStr : Type := List Char

/-- Index of the last occurrence of `c` in `s` (`str.rindex` without the
exception). -/
def rindexLast (s : PyStr) (c : Char) : Option Nat :=
  match s with
  | [] => none
  | x :: xs =>
    match rindexLast xs c with
    | some i => some (i + 1)
    | none => if x = c then some 0 else none

/-- `str.rindex`: the index of the last occurrence, raising `ValueError`
when the character does not occur (Python: "substring not found"). -/
def rindex (s : PyStr) (c : Char) : Except PyError Nat :=
  match rindexLast s c with
  | none => .error .valueError
  | some i => .ok i

/-- The arguments `__init__`/`load` pass to the external
`InferenceModel.load_openvino_ng` / `load_openvino` call. -/
structure LoadCall where
  lc_model_path : PyStr
  lc_weight_path : PyStr
  lc_batch_size : Int
deriving DecidableEq

/-- The estimator attributes relevant to the claims, as set by a successful
`__init__` or `load` (`node_num`/`core_num` and the opaque engine handle are
omitted: no claim mentions them). -/
structure EstimatorState where
  path : PyStr
  batch_size : Int
  loadCall : LoadCall
deriving DecidableEq

/-- Lines 47-56 (identical in `load`, lines 202-211): when the `batch_size`
argument is nonzero, use it; otherwise consult the parsed model XML.
`shape_item` stands for the result of
`root.find('./layers/layer/output/port/dim[1]')` followed by `int(...)` on
its text: `none` when the element is absent (then `ValueError` is raised),
`some d` for an element with integer text `d`. -/
def initBatchSize (batch_size : Int) (shape_item : Option Int) :
    Except PyError Int :=
  if batch_size ≠ 0 then .ok batch_size
  else
    match shape_item with
    | none => .error .valueError
    | some d => .ok d

namespace OpenvinoEstimator

/-- `OpenvinoEstimator.__init__` (lines 41-60): set `self.path`, determine
`self.batch_size` (possibly from the XML), then call `load_openvino_ng` with
`weight_path = model_path[:model_path.rindex(".")] + ".bin"` and
`batch_size = self.batch_size`.  `str.rindex` raises `ValueError` when
`model_path` contains no `'.'`. -/
def init (model_path : PyStr) (batch_size : Int) (shape_item : Option Int) :
    Except PyError EstimatorState :=
  match initBatchSize batch_size shape_item with
  | .error e => .error e
  | .ok bs =>
    match rindex model_path '.' with
    | .error e => .error e
    | .ok i =>
      .ok { path := model_path
            batch_size := bs
            loadCall :=
              { lc_model_path := model_path
                lc_weight_path := model_path.take i ++ ['.', 'b', 'i', 'n']
                lc_batch_size := bs } }

/-- `OpenvinoEstimator.load` (lines 192-215): same attribute updates as
`__init__`, but the final `load_openvino` call receives
`batch_size = batch_size` — the *argument*, not `self.batch_size`
(line 215). -/
def load (model_path : PyStr) (batch_size : Int) (shape_item : Option Int) :
    Except PyError EstimatorState :=
  match initBatchSize batch_size shape_item with
  | .error e => .error e
  | .ok bs =>
    match rindex model_path '.' with
    | .error e => .error e
    | .ok i =>
      .ok { path := model_path
            batch_size := bs
            loadCall :=
              { lc_model_path := model_path
                lc_weight_path := model_path.take i ++ ['.', 'b', 'i', 'n']
                lc_batch_size := batch_size } }

/-- `fit` (lines 62-67): raises `NotImplementedError`; the state is returned
untouched alongside the exception. -/
def fit (st : EstimatorState) (data : α) (epochs : β) (batch_size : γ)
    (feature_cols : δ) (label_cols : ε) (validation_data : ζ)
    (checkpoint_trigger : η) : Except PyError Unit × EstimatorState :=
  (.error .notImplementedError, st)

/-- `evaluate` (lines 174-178): raises `NotImplementedError`. -/
def evaluate (st : EstimatorState) (data : α) (batch_size : β)
    (feature_cols : γ) (label_cols : δ) : Except PyError Unit × EstimatorState :=
  (.error .notImplementedError, st)

/-- `get_model` (lines 180-184): raises `NotImplementedError`. -/
def get_model (st : EstimatorState) : Except PyError Unit × EstimatorState :=
  (.error .notImplementedError, st)

/-- `save` (lines 186-190): raises `NotImplementedError`. -/
def save (st : EstimatorState) (model_path : α) :
    Except PyError Unit × EstimatorState :=
  (.error .notImplementedError, st)

/-- `set_tensorboard` (lines 217-221): raises `NotImplementedError`. -/
def set_tensorboard (st : EstimatorState) (log_dir : α) (app_name : β) :
    Except PyError Unit × EstimatorState :=
  (.error .notImplementedError, st)

/-- `clear_gradient_clipping` (lines 223-227): raises `NotImplementedError`. -/
def clear_gradient_clipping (st : EstimatorState) :
    Except PyError Unit × EstimatorState :=
  (.error .notImplementedError, st)

/-- `set_constant_gradient_clipping` (lines 229-233): raises
`NotImplementedError`. -/
def set_constant_gradient_clipping (st : EstimatorState) (min : α) (max : β) :
    Except PyError Unit × EstimatorState :=
  (.error .notImplementedError, st)

/-- `set_l2_norm_gradient_clipping` (lines 235-239): raises
`NotImplementedError`. -/
def set_l2_norm_gradient_clipping (st : EstimatorState) (clip_norm : α) :
    Except PyError Unit × EstimatorState :=
  (.error .notImplementedError, st)

/-- `get_train_summary` (lines 241-245): raises `NotImplementedError`. -/
def get_train_summary (st : EstimatorState) (tag : α) :
    Except PyError Unit × EstimatorState :=
  (.error .notImplementedError, st)

/-- `get_validation_summary` (lines 247-251): raises `NotImplementedError`. -/
def get_validation_summary (st : EstimatorState) (tag : α) :
    Except PyError Unit × EstimatorState :=
  (.error .notImplementedError, st)

/-- `load_orca_checkpoint` (lines 253-257): raises `NotImplementedError`. -/
def load_orca_checkpoint (st : EstimatorState) (path : α) (version : β) :
    Except PyError Unit × EstimatorState :=
  (.error .notImplementedError, st)

end OpenvinoEstimator

/-- `Estimator.from_openvino` (lines 29-37): constructs an
`OpenvinoEstimator`. -/
def Estimator.from_openvino (model_path : PyStr) (batch_size : Int)
    (shape_item : Option Int) : Except PyError EstimatorState :=
  OpenvinoEstimator.init model_path batch_size shape_item

lemma length_appendParts (acc : List (List NDArray)) (parts : List NDArray) :
    (appendParts acc parts).length = min acc.length parts.length := by
  simp [appendParts]

lemma mem_appendParts {acc : List (List NDArray)} {parts : List NDArray}
    {sh : List NDArray} (h : sh ∈ appendParts acc parts) :
    ∃ a ∈ acc, ∃ p ∈ parts, sh = a ++ [p] := by
  unfold appendParts at h
  induction acc generalizing parts with
  | nil => simp at h
  | cons a as ih =>
    cases parts with
    | nil => simp at h
    | cons p ps =>
      simp only [List.zipWith_cons_cons, List.mem_cons] at h
      rcases h with h | h
      · exact ⟨a, by simp, p, by simp, h⟩
      · obtain ⟨a1, ha, p1, hp, hsh⟩ := ih h
        exact ⟨a1, by simp [ha], p1, by simp [hp], hsh⟩

/-- Invariant of the `for x in flattened` loop: when `k = ceil(dl / b)` and
the loop finishes without an exception, the number of shards stays `k` and
every part distributed into a shard has first-dimension length at most
`b`. -/
lemma processFlattened_inv {b dl k : Nat} (hdl : 1 ≤ dl) (hb : 1 ≤ b)
    (hk : k = ceilPy dl b) :
    ∀ (fl : List PyObj) (acc : List (List NDArray)) (dll : Option (List Nat))
      (shards : List (List NDArray)) (dll2 : Option (List Nat)),
      processFlattened dl k fl acc dll = .ok (shards, dll2) →
      acc.length = k →
      (∀ sh ∈ acc, ∀ p ∈ sh, p.length ≤ b) →
      shards.length = k ∧ ∀ sh ∈ shards, ∀ p ∈ sh, p.length ≤ b := by
  intro fl
  induction fl with
  | nil =>
    intro acc dll shards dll2 hok hlen hmem
    simp only [processFlattened, Except.ok.injEq, Prod.mk.injEq] at hok
    obtain ⟨h1, _⟩ := hok
    subst h1
    exact ⟨hlen, hmem⟩
  | cons x rest ih =>
    intro acc dll shards dll2 hok hlen hmem
    cases x with
    | pyList es => simp [processFlattened] at hok
    | arr rows =>
      by_cases hne : rows.length = dl
      · have hk0 : k ≠ 0 := by
          have := ceilPy_pos hdl hb
          omega
        simp only [processFlattened, hne, ne_eq, not_true_eq_false, if_false,
          hk0, if_true] at hok
        refine ih _ _ _ _ hok ?_ ?_
        · rw [length_appendParts, hlen, array_split_length]
          exact Nat.min_self k
        · intro sh hsh p hp
          obtain ⟨a1, ha, p1, hp1, hsheq⟩ := mem_appendParts hsh
          subst hsheq
          rcases List.mem_append.mp hp with h | h
          · exact hmem a1 ha p h
          · rw [List.mem_singleton.mp h]
            exact array_split_chunk_le hne hdl hb (hk ▸ hp1)
      · simp [processFlattened, hne] at hok

/-- C1: for a numpy-array input of length `n ≥ 1` and batch size `b ≥ 1`,
`predict` splits the data via `np.array_split` into `ceil(n/b)` chunks, each
of first-dimension length at most `b`; and for a list input of ndarrays of
common first-dimension length `n`, the loop distributes each array's
`ceil(n/b)` parts into `ceil(n/b)` shards in which every part has
first-dimension length at most `b`. -/
theorem claim_C1_chunks (n b : Nat) (hn : 1 ≤ n) (hb : 1 ≤ b) :
    (∀ x : NDArray, x.length = n →
      (array_split x (ceilPy n b)).length = ceilPy n b ∧
      ∀ c ∈ array_split x (ceilPy n b), c.length ≤ b) ∧
    (∀ (x0rows : List (List Int)) (rest : List PyObj)
       (shards : List (List NDArray)) (dll : Option (List Nat)),
      x0rows.length = n →
      listBranch (PyObj.arr x0rows :: rest) b = .ok (shards, dll) →
      shards.length = ceilPy n b ∧ ∀ sh ∈ shards, ∀ p ∈ sh, p.length ≤ b) := by
  constructor
  · intro x hx
    exact ⟨array_split_length x _, fun c hc => array_split_chunk_le hx hn hb hc⟩
  · intro x0rows rest shards dll hx hok
    simp only [listBranch, pyObjShape0, pyObjLen, hx] at hok
    refine processFlattened_inv hn hb rfl _ _ _ _ _ hok (by simp) ?_
    intro sh hsh p hp
    rw [List.eq_of_mem_replicate hsh] at hp
    simp at hp

/-- Witness for C1 at `n = 3`, `b = 2`, `x = [[1],[2],[3]]`. -/
theorem claim_C1_chunks_witness :
    (array_split ([[1],[2],[3]] : NDArray) (ceilPy 3 2)).length = ceilPy 3 2 ∧
    ∀ c ∈ array_split ([[1],[2],[3]] : NDArray) (ceilPy 3 2), c.length ≤ 2 :=
  (claim_C1_chunks 3 2 (by decide) (by decide)).1 [[1],[2],[3]] rfl

/-- C6: every training/evaluation/checkpoint/model-modification method —
`fit`, `evaluate`, `get_model`, `save`, `set_tensorboard`,
`clear_gradient_clipping`, `set_constant_gradient_clipping`,
`set_l2_norm_gradient_clipping`, `get_train_summary`,
`get_validation_summary`, `load_orca_checkpoint` — unconditionally raises
`NotImplementedError` for every argument and leaves the estimator state
unchanged. -/
theorem claim_C6_stubs (st : EstimatorState) :
    (∀ (α β γ δ ε ζ η : Type) (data : α) (epochs : β) (batch_size : γ)
       (feature_cols : δ) (label_cols : ε) (validation_data : ζ)
       (checkpoint_trigger : η),
      OpenvinoEstimator.fit st data epochs batch_size feature_cols label_cols
          validation_data checkpoint_trigger =
        (.error .notImplementedError, st)) ∧
    (∀ (α β γ δ : Type) (data : α) (batch_size : β) (feature_cols : γ)
       (label_cols : δ),
      OpenvinoEstimator.evaluate st data batch_size feature_cols label_cols =
        (.error .notImplementedError, st)) ∧
    OpenvinoEstimator.get_model st = (.error .notImplementedError, st) ∧
    (∀ (α : Type) (model_path : α),
      OpenvinoEstimator.save st model_path =
        (.error .notImplementedError, st)) ∧
    (∀ (α β : Type) (log_dir : α) (app_name : β),
      OpenvinoEstimator.set_tensorboard st log_dir app_name =
        (.error .notImplementedError, st)) ∧
    OpenvinoEstimator.clear_gradient_clipping st =
      (.error .notImplementedError, st) ∧
    (∀ (α β : Type) (min : α) (max : β),
      OpenvinoEstimator.set_constant_gradient_clipping st min max =
        (.error .notImplementedError, st)) ∧
    (∀ (α : Type) (clip_norm : α),
      OpenvinoEstimator.set_l2_norm_gradient_clipping st clip_norm =
        (.error .notImplementedError, st)) ∧
    (∀ (α : Type) (tag : α),
      OpenvinoEstimator.get_train_summary st tag =
        (.error .notImplementedError, st)) ∧
    (∀ (α : Type) (tag : α),
      OpenvinoEstimator.get_validation_summary st tag =
        (.error .notImplementedError, st)) ∧
    (∀ (α β : Type) (path : α) (version : β),
      OpenvinoEstimator.load_orca_checkpoint st path version =
        (.error .notImplementedError, st)) := by
  refine ⟨?_, ?_, rfl, ?_, ?_, rfl, ?_, ?_, ?_, ?_, ?_⟩ <;> intros <;> rfl

/-- C7: `predict` dispatches on the input container type — DataFrame,
SparkXShards, numpy ndarray and list inputs go to their respective handlers,
and every other input raises `ValueError`. -/
theorem claim_C7_dispatch (b : Nat) (eng : Engine) :
    (∀ className,
      predictModel (.other className) b eng = .error .valueError) ∧
    (∀ shards, predictModel (.dataFrame shards) b eng =
      (dfBranch shards b eng.predictShards).map PredictResult.dfOut) ∧
    (∀ shards, predictModel (.sparkXShards shards) b eng =
      (xshardsBranch shards b eng.predictShards).map PredictResult.shardsOut) ∧
    (∀ a, predictModel (.ndarray a) b eng =
      (ndarrayBranchFull a b eng.predictChunk).map PredictResult.arrOut) ∧
    (∀ flattened, predictModel (.listData flattened) b eng =
      (listBranchFull flattened b eng.predictList).map PredictResult.arrOut) := by
  refine ⟨?_, ?_, ?_, ?_, ?_⟩ <;> intros <;> rfl

/-- The failing list input for C2: a single 4-row, 3-column ndarray. -/
def C2flattened : List PyObj :=
  [PyObj.arr [[0,0,0],[0,0,0],[0,0,0],[0,0,0]]]

/-- A conforming `distributed_predict` for C2: every per-chunk output has 3
rows (the model batch size), hence at least each chunk's 2 rows. -/
def C2engine : List NDArray → NDArray := fun _ => [[9],[9],[9]]

/-- C2 (code bug): on the list input `[np.zeros((4, 3))]` with batch size 3,
`data_length_list` is taken from the *rows* of the last chunk (line 159 maps
`len` over `x_part` instead of over `x_parts`), so it records `[3, 3]` — the
row widths — instead of the chunk lengths `[2, 2]`; with per-chunk outputs of
3 rows the trimming keeps all padded rows and `predict` returns 6 rows for a
4-row input, not `n = 4` as the claim states. -/
theorem claim_C2_bug_eval :
    listBranchFull C2flattened 3 C2engine = .ok [[9],[9],[9],[9],[9],[9]] ∧
    pyObjLen (PyObj.arr [[0,0,0],[0,0,0],[0,0,0],[0,0,0]]) = 4 ∧
    (C2engine [[[0,0,0],[0,0,0]]]).length = 3 ∧
    ([[9],[9],[9],[9],[9],[9]] : NDArray).length ≠
      pyObjLen (PyObj.arr [[0,0,0],[0,0,0],[0,0,0],[0,0,0]]) := by
  refine ⟨rfl, rfl, rfl, by decide⟩

lemma transformAll_assertion {b : Nat} :
    ∀ (shards : List ShardDict),
      (∀ s ∈ shards, ∃ a, s.x = Feature.nd a) →
      (∃ s ∈ shards, b < featLen s.x) →
      transformAll b shards = .error .assertionError := by
  intro shards
  induction shards with
  | nil => simp
  | cons s rest ih =>
    intro hnd hover
    obtain ⟨a, ha⟩ := hnd s (by simp)
    by_cases hle : a.length ≤ b
    · have hrest : ∃ t ∈ rest, b < featLen t.x := by
        obtain ⟨t, ht, hbt⟩ := hover
        rcases List.mem_cons.mp ht with h | htr
        · exfalso
          subst h
          rw [ha] at hbt
          simp [featLen] at hbt
          omega
        · exact ⟨t, htr, hbt⟩
      have hr := ih (fun t ht => hnd t (List.mem_cons_of_mem s ht)) hrest
      simp [transformAll, predict_transform, ha, hle, hr]
    · simp [transformAll, predict_transform, ha, hle]

lemma transformAll_ok {b : Nat} :
    ∀ (shards : List ShardDict),
      (∀ s ∈ shards, ∃ a, s.x = Feature.nd a ∧ a.length ≤ b) →
      transformAll b shards = .ok (shards.map ShardDict.x) := by
  intro shards
  induction shards with
  | nil => simp [transformAll]
  | cons s rest ih =>
    intro h
    obtain ⟨a, ha, hle⟩ := h s (by simp)
    have hrest := ih (fun t ht => h t (List.mem_cons_of_mem s ht))
    simp [transformAll, predict_transform, ha, hle, hrest]

/-- C3 counterexample: a SparkXShards partition whose `'x'` has 2 rows with
model batch size 1 is *rejected* by `predict_transform`'s assert — it is not
split into chunks, and no predictions are produced. -/
theorem claim_C3_counterexample :
    xshardsBranch [{ x := Feature.nd [[0],[0]] }] 1 (fun _ => [[[0],[0]]]) =
      .error .assertionError := rfl

/-- C3 (amended): for SparkXShards input, a shard whose `'x'` feature has
first-dimension length larger than the model batch size makes `predict` fail
with `AssertionError` (for any behaviour of the distributed-predict
primitive) instead of being split into chunks. -/
theorem claim_C3_amended (shards : List ShardDict) (b : Nat)
    (predictShards : List Feature → List NDArray)
    (hnd : ∀ s ∈ shards, ∃ a, s.x = Feature.nd a)
    (hover : ∃ s ∈ shards, b < featLen s.x) :
    xshardsBranch shards b predictShards = .error .assertionError := by
  unfold xshardsBranch
  rw [transformAll_assertion shards hnd hover]

/-- Witness for the amended C3: a 3-row shard with batch size 2. -/
theorem claim_C3_amended_witness :
    xshardsBranch [{ x := Feature.nd [[0],[0],[0]] }] 2 (fun _ => []) =
      .error .assertionError :=
  claim_C3_amended _ 2 _
    (by
      intro s hs
      rw [List.mem_singleton] at hs
      subst hs
      exact ⟨_, rfl⟩)
    ⟨_, List.mem_singleton.mpr rfl, by decide⟩

/-- C4: for SparkXShards whose shards all carry an ndarray `'x'` of
first-dimension length at most the batch size, and a distributed-predict
primitive returning one output per shard of first-dimension length at least
`len(shard['x'])`, `predict` succeeds and returns one shard per input shard
(same partitioning), each being the input dictionary extended with
`'prediction'` bound to the per-shard output truncated to
`len(shard['x'])`. -/
theorem claim_C4_update_shard (shards : List ShardDict) (b : Nat)
    (predictShards : List Feature → List NDArray)
    (hnd : ∀ s ∈ shards, ∃ a, s.x = Feature.nd a ∧ a.length ≤ b)
    (hlen : (predictShards (shards.map ShardDict.x)).length = shards.length)
    (hge : ∀ (i : Nat) (hi : i < shards.length)
        (ho : i < (predictShards (shards.map ShardDict.x)).length),
        featLen (shards.get ⟨i, hi⟩).x ≤
          ((predictShards (shards.map ShardDict.x)).get ⟨i, ho⟩).length) :
    ∃ res, xshardsBranch shards b predictShards = .ok res ∧
      res.length = shards.length ∧
      ∀ (i : Nat) (hi : i < shards.length) (hr : i < res.length)
        (ho : i < (predictShards (shards.map ShardDict.x)).length),
        (res.get ⟨i, hr⟩).x = (shards.get ⟨i, hi⟩).x ∧
        (res.get ⟨i, hr⟩).prediction =
          ((predictShards (shards.map ShardDict.x)).get ⟨i, ho⟩).take
            (featLen (shards.get ⟨i, hi⟩).x) ∧
        ((res.get ⟨i, hr⟩).prediction).length =
          featLen (shards.get ⟨i, hi⟩).x := by
  refine ⟨List.zipWith update_shard shards
      (predictShards (shards.map ShardDict.x)), ?_, ?_, ?_⟩
  · unfold xshardsBranch
    rw [transformAll_ok shards hnd]
  · rw [List.length_zipWith, hlen, Nat.min_self]
  · intro i hi hr ho
    have hz : (List.zipWith update_shard shards
        (predictShards (shards.map ShardDict.x))).get ⟨i, hr⟩ =
        update_shard (shards.get ⟨i, hi⟩)
          ((predictShards (shards.map ShardDict.x)).get ⟨i, ho⟩) := by
      simp [List.get_eq_getElem, List.getElem_zipWith]
    rw [hz]
    refine ⟨rfl, rfl, ?_⟩
    simp only [update_shard, List.length_take]
    exact Nat.min_eq_left (hge i hi ho)

/-- Witness for C4: one shard of 2 rows, batch size 2, one 3-row output. -/
theorem claim_C4_update_shard_witness :
    ∃ res, xshardsBranch [{ x := Feature.nd [[1],[2]] }] 2
        (fun _ => [[[5],[6],[7]]]) = .ok res ∧
      res.length = ([{ x := Feature.nd [[1],[2]] }] : List ShardDict).length ∧
      ∀ (i : Nat) (hi : i < ([{ x := Feature.nd [[1],[2]] }] : List ShardDict).length)
        (hr : i < res.length)
        (ho : i < ((fun _ => [[[5],[6],[7]]]) (([{ x := Feature.nd [[1],[2]] }] : List ShardDict).map ShardDict.x) : List NDArray).length),
        (res.get ⟨i, hr⟩).x =
          (([{ x := Feature.nd [[1],[2]] }] : List ShardDict).get ⟨i, hi⟩).x ∧
        (res.get ⟨i, hr⟩).prediction =
          (((fun _ => [[[5],[6],[7]]]) (([{ x := Feature.nd [[1],[2]] }] : List ShardDict).map ShardDict.x) : List NDArray).get ⟨i, ho⟩).take
            (featLen ((([{ x := Feature.nd [[1],[2]] }] : List ShardDict).get ⟨i, hi⟩)).x) ∧
        ((res.get ⟨i, hr⟩).prediction).length =
          featLen ((([{ x := Feature.nd [[1],[2]] }] : List ShardDict).get ⟨i, hi⟩)).x :=
  claim_C4_update_shard [{ x := Feature.nd [[1],[2]] }] 2 (fun _ => [[[5],[6],[7]]])
    (by
      intro s hs
      rw [List.mem_singleton] at hs
      subst hs
      exact ⟨_, rfl, by decide⟩)
    rfl
    (by
      intro i hi ho
      simp only [List.length_singleton] at hi
      have h0 : i = 0 := by omega
      subst h0
      simp [featLen])


lemma rindexLast_none_iff (s : PyStr) (c : Char) :
    rindexLast s c = none ↔ c ∉ s := by
  induction s with
  | nil => simp [rindexLast]
  | cons x xs ih =>
    cases h : rindexLast xs c with
    | some i =>
      have hmem : c ∈ xs := by
        by_contra hc
        rw [ih.mpr hc] at h
        exact Option.noConfusion h
      simp [rindexLast, h, hmem]
    | none =>
      have hnot : c ∉ xs := ih.mp h
      by_cases hx : x = c
      · simp [rindexLast, h, hx]
      · rw [rindexLast, h, if_neg hx]
        constructor
        · intro _ hmem
          rcases List.mem_cons.mp hmem with h1 | h1
          · exact hx h1.symm
          · exact hnot h1
        · intro _
          rfl

lemma rindexLast_spec (s : PyStr) (c : Char) :
    ∀ (i : Nat), rindexLast s c = some i →
      ∃ hlt : i < s.length, s.get ⟨i, hlt⟩ = c ∧
        ∀ (j : Nat) (hj : j < s.length), i < j → s.get ⟨j, hj⟩ ≠ c := by
  induction s with
  | nil =>
    intro i h
    exact Option.noConfusion h
  | cons x xs ih =>
    intro i h
    rw [rindexLast] at h
    cases hr : rindexLast xs c with
    | some i0 =>
      rw [hr] at h
      have hi : i0 + 1 = i := Option.some.inj h
      subst hi
      obtain ⟨hlt, hget, hafter⟩ := ih i0 hr
      have hlt1 : i0 + 1 < (x :: xs).length := by
        simp only [List.length_cons]
        omega
      refine ⟨hlt1, ?_, ?_⟩
      · simpa using hget
      · intro j hj hij
        cases j with
        | zero => omega
        | succ j0 =>
          have hj0 : j0 < xs.length := by simpa using hj
          have hne := hafter j0 hj0 (by omega)
          simpa using hne
    | none =>
      rw [hr] at h
      by_cases hx : x = c
      · rw [if_pos hx] at h
        have hi : (0 : Nat) = i := Option.some.inj h
        subst hi
        refine ⟨by simp, by simpa using hx, ?_⟩
        intro j hj hij
        cases j with
        | zero => omega
        | succ j0 =>
          have hj0 : j0 < xs.length := by simpa using hj
          have hnotin : c ∉ xs := (rindexLast_none_iff xs c).mp hr
          intro hc
          have hc0 : xs.get ⟨j0, hj0⟩ = c := by simpa using hc
          exact hnotin (hc0 ▸ List.get_mem xs j0 hj0)
      · rw [if_neg hx] at h
        exact Option.noConfusion h

lemma rindex_ok {s : PyStr} {c : Char} {i : Nat} (h : rindex s c = .ok i) :
    rindexLast s c = some i := by
  unfold rindex at h
  cases h3 : rindexLast s c with
  | none =>
    rw [h3] at h
    exact Except.noConfusion (show (Except.error PyError.valueError :
      Except PyError Nat) = .ok i from h)
  | some j =>
    rw [h3] at h
    have hj : j = i := Except.ok.inj
      (show (Except.ok j : Except PyError Nat) = .ok i from h)
    rw [hj]

lemma rindex_ok_of_mem {s : PyStr} {c : Char} (h : c ∈ s) :
    ∃ i, rindex s c = .ok i := by
  unfold rindex
  cases h3 : rindexLast s c with
  | none => exact absurd ((rindexLast_none_iff s c).mp h3) (by simp [h])
  | some i => exact ⟨i, rfl⟩

lemma initBatchSize_error {bs : Int} {dim : Option Int} {e : PyError}
    (h : initBatchSize bs dim = .error e) : e = .valueError := by
  unfold initBatchSize at h
  by_cases hbs : bs ≠ 0
  · rw [if_pos hbs] at h
    exact Except.noConfusion h
  · rw [if_neg hbs] at h
    cases dim with
    | none =>
      exact (Except.error.inj h).symm
    | some d => exact Except.noConfusion h

lemma initBatchSize_nonzero {bs : Int} (hbs : bs ≠ 0) (dim : Option Int) :
    initBatchSize bs dim = .ok bs := by
  unfold initBatchSize
  rw [if_pos hbs]

lemma init_ok_fields {path : PyStr} {bs : Int} {dim : Option Int}
    {st : EstimatorState}
    (h : OpenvinoEstimator.init path bs dim = .ok st) :
    ∃ (v : Int) (i : Nat), initBatchSize bs dim = .ok v ∧
      rindex path '.' = .ok i ∧
      st = { path := path, batch_size := v,
             loadCall := { lc_model_path := path,
                           lc_weight_path := path.take i ++ ['.', 'b', 'i', 'n'],
                           lc_batch_size := v } } := by
  unfold OpenvinoEstimator.init at h
  cases h1 : initBatchSize bs dim with
  | error e =>
    rw [h1] at h
    exact Except.noConfusion h
  | ok v =>
    rw [h1] at h
    cases h2 : rindex path '.' with
    | error e =>
      rw [h2] at h
      exact Except.noConfusion h
    | ok i =>
      rw [h2] at h
      exact ⟨v, i, rfl, rfl, (Except.ok.inj h).symm⟩

lemma load_ok_fields {path : PyStr} {bs : Int} {dim : Option Int}
    {st : EstimatorState}
    (h : OpenvinoEstimator.load path bs dim = .ok st) :
    ∃ (v : Int) (i : Nat), initBatchSize bs dim = .ok v ∧
      rindex path '.' = .ok i ∧
      st = { path := path, batch_size := v,
             loadCall := { lc_model_path := path,
                           lc_weight_path := path.take i ++ ['.', 'b', 'i', 'n'],
                           lc_batch_size := bs } } := by
  unfold OpenvinoEstimator.load at h
  cases h1 : initBatchSize bs dim with
  | error e =>
    rw [h1] at h
    exact Except.noConfusion h
  | ok v =>
    rw [h1] at h
    cases h2 : rindex path '.' with
    | error e =>
      rw [h2] at h
      exact Except.noConfusion h
    | ok i =>
      rw [h2] at h
      exact ⟨v, i, rfl, rfl, (Except.ok.inj h).symm⟩

/-- C5 counterexample: with `batch_size = 0`, a `model_path` containing no
`'.'` ("model"), and the `dim[1]` element *present* (value 4), the
constructor still raises `ValueError` (from `str.rindex` at the weight-path
computation) — so "raises ValueError if and only if the element is absent"
fails as stated over the whole constructor. -/
theorem claim_C5_counterexample :
    OpenvinoEstimator.init ['m', 'o', 'd', 'e', 'l'] 0 (some 4) =
      .error PyError.valueError ∧
    (some (4 : Int)) ≠ (none : Option Int) :=
  ⟨rfl, by simp⟩

/-- C5 (amended): restricted to `model_path`s containing a `'.'` (the
precondition C9 records for the weight-path computation): a nonzero
`batch_size` argument becomes `self.batch_size` and the XML lookup result is
never consulted; with `batch_size = 0` the constructor raises `ValueError`
iff the `dim[1]` element is absent, and otherwise `self.batch_size` is that
element's integer value. -/
theorem claim_C5_amended (path : PyStr) (bs : Int) (dim : Option Int)
    (hdot : '.' ∈ path) :
    (bs ≠ 0 →
      (∀ dimA dimB : Option Int,
        OpenvinoEstimator.init path bs dimA =
          OpenvinoEstimator.init path bs dimB) ∧
      ∃ st, OpenvinoEstimator.init path bs dim = .ok st ∧
        st.batch_size = bs) ∧
    (bs = 0 →
      ((OpenvinoEstimator.init path bs dim = .error PyError.valueError) ↔
        dim = none) ∧
      ∀ d : Int, dim = some d →
        ∃ st, OpenvinoEstimator.init path bs dim = .ok st ∧
          st.batch_size = d) := by
  obtain ⟨i, hi⟩ := rindex_ok_of_mem hdot
  constructor
  · intro hbs
    constructor
    · intro dimA dimB
      unfold OpenvinoEstimator.init
      rw [initBatchSize_nonzero hbs dimA, initBatchSize_nonzero hbs dimB]
    · refine ⟨⟨path, bs, ⟨path, path.take i ++ ['.', 'b', 'i', 'n'], bs⟩⟩,
        ?_, rfl⟩
      unfold OpenvinoEstimator.init
      rw [initBatchSize_nonzero hbs dim, hi]
  · intro hbs
    subst hbs
    constructor
    · cases dim with
      | none =>
        refine iff_of_true ?_ rfl
        unfold OpenvinoEstimator.init
        rw [show initBatchSize 0 none = .error PyError.valueError from rfl]
      | some d =>
        refine iff_of_false ?_ (by simp)
        intro hcontra
        unfold OpenvinoEstimator.init at hcontra
        rw [show initBatchSize 0 (some d) = .ok d from rfl, hi] at hcontra
        exact Except.noConfusion hcontra
    · intro d hd
      subst hd
      refine ⟨⟨path, d, ⟨path, path.take i ++ ['.', 'b', 'i', 'n'], d⟩⟩,
        ?_, rfl⟩
      unfold OpenvinoEstimator.init
      rw [show initBatchSize 0 (some d) = .ok d from rfl, hi]

/-- Witness for the amended C5 at `model_path = "a.b"`: nonzero batch size 7
is kept, and with batch size 0 and the element absent `ValueError` is
raised. -/
theorem claim_C5_amended_witness :
    (∃ st, OpenvinoEstimator.init ['a', '.', 'b'] 7 none = .ok st ∧
      st.batch_size = 7) ∧
    ((OpenvinoEstimator.init ['a', '.', 'b'] 0 none =
        .error PyError.valueError) ↔ (none : Option Int) = none) :=
  ⟨((claim_C5_amended ['a', '.', 'b'] 7 none (by decide)).1 (by decide)).2,
   ((claim_C5_amended ['a', '.', 'b'] 0 none (by decide)).2 rfl).1⟩

/-- C9: in both `__init__` and `load`, the weight path handed to the
inference engine is `model_path` with everything from its last `'.'` onward
replaced by `".bin"`; when `model_path` contains no `'.'` the call fails
with `ValueError` and no engine load-call state is produced. -/
theorem claim_C9_weight_path (path : PyStr) (bs : Int) (dim : Option Int) :
    ('.' ∉ path →
      OpenvinoEstimator.init path bs dim = .error PyError.valueError ∧
      OpenvinoEstimator.load path bs dim = .error PyError.valueError) ∧
    (∀ st : EstimatorState,
      (OpenvinoEstimator.init path bs dim = .ok st ∨
       OpenvinoEstimator.load path bs dim = .ok st) →
      st.loadCall.lc_model_path = path ∧
      ∃ (i : Nat) (hlt : i < path.length),
        path.get ⟨i, hlt⟩ = '.' ∧
        (∀ (j : Nat) (hj : j < path.length), i < j →
          path.get ⟨j, hj⟩ ≠ '.') ∧
        st.loadCall.lc_weight_path = path.take i ++ ['.', 'b', 'i', 'n']) := by
  constructor
  · intro hnot
    have hfail : rindex path '.' = .error .valueError := by
      unfold rindex
      rw [(rindexLast_none_iff path '.').mpr hnot]
    constructor
    · unfold OpenvinoEstimator.init
      cases h1 : initBatchSize bs dim with
      | error e => rw [initBatchSize_error h1]
      | ok v => rw [hfail]
    · unfold OpenvinoEstimator.load
      cases h1 : initBatchSize bs dim with
      | error e => rw [initBatchSize_error h1]
      | ok v => rw [hfail]
  · intro st hok
    have fields : ∃ i : Nat, rindex path '.' = .ok i ∧
        st.loadCall.lc_model_path = path ∧
        st.loadCall.lc_weight_path = path.take i ++ ['.', 'b', 'i', 'n'] := by
      rcases hok with h | h
      · obtain ⟨v, i, h1, h2, hst⟩ := init_ok_fields h
        subst hst
        exact ⟨i, h2, rfl, rfl⟩
      · obtain ⟨v, i, h1, h2, hst⟩ := load_ok_fields h
        subst hst
        exact ⟨i, h2, rfl, rfl⟩
    obtain ⟨i, h2, hmp, hwp⟩ := fields
    obtain ⟨hlt, hget, hafter⟩ := rindexLast_spec path '.' i (rindex_ok h2)
    exact ⟨hmp, i, hlt, hget, hafter, hwp⟩

/-- The estimator state `__init__` produces for `model_path = "m.x"`,
`batch_size = 5`. -/
def C9st : EstimatorState :=
  { path := ['m', '.', 'x'], batch_size := 5,
    loadCall := { lc_model_path := ['m', '.', 'x'],
                  lc_weight_path := ['m', '.', 'b', 'i', 'n'],
                  lc_batch_size := 5 } }

/-- Witness for C9 at `model_path = "m.x"`: the last-dot position exists and
the weight path is `"m.bin"`. -/
theorem claim_C9_weight_path_witness :
    C9st.loadCall.lc_model_path = (['m', '.', 'x'] : PyStr) ∧
    ∃ (i : Nat) (hlt : i < (['m', '.', 'x'] : PyStr).length),
      (['m', '.', 'x'] : PyStr).get ⟨i, hlt⟩ = '.' ∧
      (∀ (j : Nat) (hj : j < (['m', '.', 'x'] : PyStr).length), i < j →
        (['m', '.', 'x'] : PyStr).get ⟨j, hj⟩ ≠ '.') ∧
      C9st.loadCall.lc_weight_path =
        (['m', '.', 'x'] : PyStr).take i ++ ['.', 'b', 'i', 'n'] :=
  (claim_C9_weight_path ['m', '.', 'x'] 5 none).2 C9st (Or.inl rfl)

/-- C10 counterexample: `load("m.", batch_size=0)` with the XML `dim[1]`
element equal to 4 sets `self.batch_size = 4` but forwards `batch_size = 0`
to the engine's `load_openvino` call (line 215 passes the argument, not
`self.batch_size`). -/
theorem claim_C10_counterexample :
    OpenvinoEstimator.load ['m', '.'] 0 (some 4) =
      .ok { path := ['m', '.'], batch_size := 4,
            loadCall := { lc_model_path := ['m', '.'],
                          lc_weight_path := ['m', '.', 'b', 'i', 'n'],
                          lc_batch_size := 0 } } ∧
    (4 : Int) ≠ 0 :=
  ⟨rfl, by decide⟩

/-- C10 (amended): after a successful `__init__` the engine load-call batch
size equals `self.batch_size` in every case; after a successful `load` it
equals the `batch_size` *argument*, which coincides with `self.batch_size`
only when that argument is nonzero. -/
theorem claim_C10_amended (path : PyStr) (bs : Int) (dim : Option Int)
    (st : EstimatorState) :
    (OpenvinoEstimator.init path bs dim = .ok st →
      st.loadCall.lc_batch_size = st.batch_size) ∧
    (OpenvinoEstimator.load path bs dim = .ok st →
      st.loadCall.lc_batch_size = bs ∧
      (bs ≠ 0 → st.loadCall.lc_batch_size = st.batch_size)) := by
  constructor
  · intro h
    obtain ⟨v, i, h1, h2, hst⟩ := init_ok_fields h
    subst hst
    rfl
  · intro h
    obtain ⟨v, i, h1, h2, hst⟩ := load_ok_fields h
    subst hst
    refine ⟨rfl, ?_⟩
    intro hbs
    have h3 := initBatchSize_nonzero hbs dim
    rw [h1] at h3
    exact (Except.ok.inj h3).symm

/-- The estimator state `__init__` produces for `model_path = "m."`,
`batch_size = 5`. -/
def C10st : EstimatorState :=
  { path := ['m', '.'], batch_size := 5,
    loadCall := { lc_model_path := ['m', '.'],
                  lc_weight_path := ['m', '.', 'b', 'i', 'n'],
                  lc_batch_size := 5 } }

/-- Witness for the amended C10: after `__init__("m.", batch_size=5)` the
forwarded batch size equals `self.batch_size`. -/
theorem claim_C10_amended_witness :
    C10st.loadCall.lc_batch_size = C10st.batch_size :=
  (claim_C10_amended ['m', '.'] 5 none C10st).1 rfl

lemma processFlattened_bad {dl k : Nat} (hk : k ≠ 0) :
    ∀ (fl : List PyObj) (acc : List (List NDArray)) (dll : Option (List Nat)),
      (∃ x ∈ fl, (∀ r, x ≠ PyObj.arr r) ∨
        ∃ r, x = PyObj.arr r ∧ r.length ≠ dl) →
      processFlattened dl k fl acc dll = .error .assertionError := by
  intro fl
  induction fl with
  | nil =>
    intro acc dll h
    simp at h
  | cons x rest ih =>
    intro acc dll h
    cases x with
    | pyList es => rfl
    | arr rows =>
      by_cases hne : rows.length = dl
      · have hrest : ∃ y ∈ rest, (∀ r, y ≠ PyObj.arr r) ∨
            ∃ r, y = PyObj.arr r ∧ r.length ≠ dl := by
          obtain ⟨y, hy, hbad⟩ := h
          rcases List.mem_cons.mp hy with h1 | h1
          · exfalso
            subst h1
            rcases hbad with hb | ⟨r, hr, hrl⟩
            · exact hb rows rfl
            · have hrr : rows = r := PyObj.arr.inj hr
              exact hrl (hrr ▸ hne)
          · exact ⟨y, h1, hbad⟩
        simp only [processFlattened]
        rw [if_neg (not_not_intro hne), if_neg hk]
        exact ih _ _ hrest
      · simp only [processFlattened]
        rw [if_pos hne]

/-- C8 counterexample: a list whose first flattened element is a plain
Python list (no `.shape` attribute) fails with `AttributeError` at
`flattened[0].shape[0]` (line 146), not with an assertion as the claim
states. -/
theorem claim_C8_counterexample :
    listBranch [PyObj.pyList [1, 2]] 1 = .error .attributeError ∧
    PyError.attributeError ≠ PyError.assertionError :=
  ⟨rfl, by decide⟩

/-- C8 (amended): for a list input with positive model batch size whose
*first* flattened element is an ndarray of *positive* first-dimension
length, if some flattened element is not an ndarray or some ndarray
element's first-dimension length differs from the first element's, then
`predict` fails with `AssertionError` — for every behaviour of the
distributed-predict primitive, i.e. before any chunk is forwarded to it.
When the first flattened element is an *empty* ndarray the failure is still
before forwarding but is a `ValueError` instead: `split_num = ceil(0/b) = 0`
and the first loop iteration hits `np.array_split(x, 0)` (line 156).
(A first element that is not an ndarray at all raises `AttributeError`,
shown by the counterexample.) -/
theorem claim_C8_amended (b : Nat) (predictList : List NDArray → NDArray)
    (hb : 1 ≤ b) :
    (∀ (x0rows : List (List Int)) (rest : List PyObj),
      1 ≤ x0rows.length →
      ((∃ x ∈ PyObj.arr x0rows :: rest, ∀ r, x ≠ PyObj.arr r) ∨
        ∃ r, PyObj.arr r ∈ PyObj.arr x0rows :: rest ∧
          r.length ≠ x0rows.length) →
      listBranchFull (PyObj.arr x0rows :: rest) b predictList =
        .error .assertionError) ∧
    (∀ rest : List PyObj,
      listBranchFull (PyObj.arr [] :: rest) b predictList =
        .error .valueError) := by
  constructor
  · intro x0rows rest hn hbad
    have hk : ceilPy x0rows.length b ≠ 0 := by
      have := ceilPy_pos hn hb
      omega
    have hbranch : listBranch (PyObj.arr x0rows :: rest) b =
        .error .assertionError := by
      simp only [listBranch, pyObjShape0, pyObjLen]
      apply processFlattened_bad hk
      rcases hbad with ⟨x, hx, hnotarr⟩ | ⟨r, hr, hrl⟩
      · exact ⟨x, hx, Or.inl hnotarr⟩
      · exact ⟨PyObj.arr r, hr, Or.inr ⟨r, rfl, hrl⟩⟩
    unfold listBranchFull
    rw [hbranch]
  · intro rest
    have hsplit : ceilPy 0 b = 0 := by
      unfold ceilPy
      exact Nat.div_eq_of_lt (by omega)
    have hbranch : listBranch (PyObj.arr [] :: rest) b =
        .error .valueError := by
      show processFlattened 0 (ceilPy 0 b) (PyObj.arr [] :: rest)
        (List.replicate (ceilPy 0 b) []) none = .error .valueError
      rw [hsplit]
      rfl
    unfold listBranchFull
    rw [hbranch]

/-- Witness for the amended C8: `[np.array([[1]]), [2]]` with batch size 1 —
the second flattened element is not an ndarray, so the branch raises
`AssertionError`. -/
theorem claim_C8_amended_witness :
    listBranchFull [PyObj.arr [[1]], PyObj.pyList [2]] 1 (fun _ => []) =
      .error .assertionError :=
  (claim_C8_amended 1 (fun _ => []) (by decide)).1 [[1]] [PyObj.pyList [2]]
    (by decide)
    (Or.inl ⟨PyObj.pyList [2], by simp, fun r h => PyObj.noConfusion h⟩)
